import Mathlib

/-!
# Verification of the mini-3D minigame hub core

Shallow embedding of the economy store, the dice minigame engine, the
basketball scoring test, the Simon pattern state machine and the player
stamina controller of the repository, together with theorems settling the
specification claims.

Numeric values of the source (JavaScript numbers) are modelled as
rationals.  Where the source compares a Euclidean length `sqrt (x² + y² + z²)`
against a nonnegative constant `c`, the embedding compares the squared
length against `c²`, which is equivalent since both sides are nonnegative.
-/

/-! ## Vectors and quaternions (three.js `Vector3` / `Quaternion`) -/

structure Vec3 where
  x : ℚ
  y : ℚ
  z : ℚ
deriving DecidableEq, Repr

structure Quat where
  x : ℚ
  y : ℚ
  z : ℚ
  w : ℚ
deriving DecidableEq, Repr

/-- three.js `Vector3.applyQuaternion`: with `t = 2 (q.xyz × v)`,
the rotated vector is `v + q.w • t + q.xyz × t`. -/
def applyQuaternion (q : Quat) (v : Vec3) : Vec3 :=
  let tx := 2 * (q.y * v.z - q.z * v.y)
  let ty := 2 * (q.z * v.x - q.x * v.z)
  let tz := 2 * (q.x * v.y - q.y * v.x)
  { x := v.x + q.w * tx + q.y * tz - q.z * ty
    y := v.y + q.w * ty + q.z * tx - q.x * tz
    z := v.z + q.w * tz + q.x * ty - q.y * tx }

/-- Squared Euclidean length of a vector; the source computes
`length() = sqrt (x² + y² + z²)` and only ever compares it to constants. -/
def normSq (v : Vec3) : ℚ := v.x ^ 2 + v.y ^ 2 + v.z ^ 2

/-! ## Dice constants and face-value derivation (`DiceGame`) -/

/-- `DICE_FACES`: outward face normals with the printed value of each face,
in source order. -/
def DICE_FACES : List (Vec3 × ℕ) :=
  [ (⟨0, 1, 0⟩, 1)
  , (⟨0, -1, 0⟩, 6)
  , (⟨1, 0, 0⟩, 3)
  , (⟨-1, 0, 0⟩, 4)
  , (⟨0, 0, 1⟩, 2)
  , (⟨0, 0, -1⟩, 5) ]

def MAX_ROLL_TIME : ℚ := 5

def SETTLE_THRESHOLD : ℚ := 1 / 10

/-- `getDiceValue`: among the six face normals rotated by the die
orientation, pick the printed value of the face whose rotated normal has
the maximum dot product with world-up `(0,1,0)` (that dot product is the
`y` component of the rotated normal).  The running maximum starts at
`-Infinity` in the source, modelled by `Option ℚ` with `none` below
everything; the comparison `dot > maxDot` is strict.  `diceFaceStep` is the
body of the loop over `DICE_FACES`; `getDiceValue` folds it. -/
def diceFaceStep (q : Quat) (acc : Option ℚ × ℕ) (face : Vec3 × ℕ) : Option ℚ × ℕ :=
  let dot := (applyQuaternion q face.1).y
  match acc.1 with
  | none => (some dot, face.2)
  | some m => if dot > m then (some dot, face.2) else acc

def getDiceValue (q : Quat) : ℕ :=
  (DICE_FACES.foldl (diceFaceStep q) ((none : Option ℚ), 1)).2

/-! ## Game store state (`useGameStore`) -/

inductive RoomType
  | main
  | minigame1
  | minigame2
  | minigame3
  | minigame4
deriving DecidableEq, Repr

/-- Portal config entry; only the fields the player controller reads. -/
structure Portal where
  targetRoom : RoomType
  position : Vec3
deriving DecidableEq, Repr

/-- Reward-box inventory entry (`item.minigameId`). -/
structure InventoryItem where
  minigameId : RoomType
deriving DecidableEq, Repr

structure DiceResult where
  dice1 : ℕ
  dice2 : ℕ
  dice3 : ℕ
  total : ℕ
deriving DecidableEq, Repr

/-- The mutable game store.  Save-system fields, UI message strings and the
lit-button highlight are omitted: no modelled action or claim reads them. -/
structure GameState where
  currentRoom : RoomType
  nearPortal : Option Portal
  money : ℚ
  isNearMiniGame : Bool
  isMiniGameActive : Bool
  diceResult : Option DiceResult
  isRolling : Bool
  shouldTriggerRoll : Bool
  currentBet : Option ℚ
  betAmount : ℚ
  lastBetForResult : Option ℚ
  lastBetAmountForResult : ℚ
  isNearBasketball : Bool
  isBasketballActive : Bool
  isHoldingBall : Bool
  throwPower : ℚ
  isChargingThrow : Bool
  basketballScore : ℕ
  basketballAttempts : ℕ
  basketballBetAmount : ℚ
  basketballBetPlaced : Bool
  lastBasketballResult : Option Bool
  isNearSimon : Bool
  isSimonActive : Bool
  simonBetAmount : ℚ
  simonBetPlaced : Bool
  simonPattern : List ℕ
  simonPlayerPattern : List ℕ
  simonScore : ℕ
  simonIsShowingPattern : Bool
  simonCanClick : Bool
  simonIsGameOver : Bool
deriving DecidableEq, Repr

/-- The initial store state of `useGameStore`. -/
def initialGameState : GameState :=
  { currentRoom := RoomType.main
    nearPortal := none
    money := 100
    isNearMiniGame := false
    isMiniGameActive := false
    diceResult := none
    isRolling := false
    shouldTriggerRoll := false
    currentBet := none
    betAmount := 0
    lastBetForResult := none
    lastBetAmountForResult := 0
    isNearBasketball := false
    isBasketballActive := false
    isHoldingBall := false
    throwPower := 0
    isChargingThrow := false
    basketballScore := 0
    basketballAttempts := 0
    basketballBetAmount := 0
    basketballBetPlaced := false
    lastBasketballResult := none
    isNearSimon := false
    isSimonActive := false
    simonBetAmount := 10
    simonBetPlaced := false
    simonPattern := []
    simonPlayerPattern := []
    simonScore := 0
    simonIsShowingPattern := false
    simonCanClick := false
    simonIsGameOver := false }

/-! ## Economy actions -/

/-- `setMoney(amount)`: `money := Math.max(0, amount)`. -/
def setMoney (s : GameState) (amount : ℚ) : GameState :=
  { s with money := max 0 amount }

/-- `addMoney(amount)`: `money := money + amount` (no sign check). -/
def addMoney (s : GameState) (amount : ℚ) : GameState :=
  { s with money := s.money + amount }

/-- `removeMoney(amount)`: debit if `money >= amount`, returning success. -/
def removeMoney (s : GameState) (amount : ℚ) : Bool × GameState :=
  if s.money ≥ amount then (true, { s with money := s.money - amount })
  else (false, s)

/-! ## Dice game actions -/

/-- `placeBet(predictedSum, amount)`: rejects `money < amount || amount <= 0`,
then rejects `predictedSum < 2 || predictedSum > 12`, else debits the wager
and records the bet. -/
def placeBet (s : GameState) (predictedSum amount : ℚ) : Bool × GameState :=
  if s.money < amount ∨ amount ≤ 0 then (false, s)
  else if predictedSum < 2 ∨ predictedSum > 12 then (false, s)
  else
    (true,
      { s with
          money := s.money - amount
          currentBet := some predictedSum
          betAmount := amount })

/-- `triggerRoll()`: latch the pending bet for result processing unless a
roll is already in progress or no positive bet is pending. -/
def triggerRoll (s : GameState) : GameState :=
  if s.isRolling ∨ s.currentBet = none ∨ s.betAmount ≤ 0 then s
  else
    { s with
        shouldTriggerRoll := true
        lastBetForResult := s.currentBet
        lastBetAmountForResult := s.betAmount }

/-- The resolution block of the `DiceGame` frame loop, given the two derived
face values: stop rolling, record the result, pay `amount * 2` when the
latched bet equals the total, then clear the bet. -/
def diceResolve (s : GameState) (v1 v2 : ℕ) : GameState :=
  let total := v1 + v2
  let s1 := { s with isRolling := false, diceResult := some ⟨v1, v2, 0, total⟩ }
  let s2 :=
    if s1.lastBetForResult = some (total : ℚ) then
      { s1 with money := s1.money + s1.lastBetAmountForResult * 2 }
    else s1
  { s2 with currentBet := none, betAmount := 0 }

/-! ## Basketball actions -/

/-- `placeBasketballBet(amount)`: same funds check as `placeBet`. -/
def placeBasketballBet (s : GameState) (amount : ℚ) : Bool × GameState :=
  if s.money < amount ∨ amount ≤ 0 then (false, s)
  else
    (true,
      { s with
          money := s.money - amount
          basketballBetAmount := amount
          basketballBetPlaced := true
          lastBasketballResult := none })

/-- `resolveBasketballBet(scored)`: pay double the wager on a score, mark the
result, clear the pending flag; no-op without a placed bet. -/
def resolveBasketballBet (s : GameState) (scored : Bool) : GameState :=
  if !s.basketballBetPlaced then s
  else if scored then
    { s with
        money := s.money + s.basketballBetAmount * 2
        lastBasketballResult := some true
        basketballBetPlaced := false }
  else
    { s with
        lastBasketballResult := some false
        basketballBetPlaced := false }

/-! ## Simon actions -/

/-- `startSimonGame(betAmount)`: debit the wager and reset the session. -/
def startSimonGame (s : GameState) (betAmount : ℚ) : Bool × GameState :=
  if s.money < betAmount ∨ betAmount ≤ 0 then (false, s)
  else
    (true,
      { s with
          money := s.money - betAmount
          simonBetAmount := betAmount
          simonBetPlaced := true
          simonPattern := []
          simonPlayerPattern := []
          simonScore := 0
          simonIsGameOver := false })

/-- `addToSimonPattern()`: append one random button index (the random draw
is the `newButton` argument here), reset the input, enter pattern display. -/
def addToSimonPattern (s : GameState) (newButton : ℕ) : GameState :=
  { s with
      simonPattern := s.simonPattern ++ [newButton]
      simonPlayerPattern := []
      simonIsShowingPattern := true
      simonCanClick := false }

/-- `simonButtonClick(button)`: ignore clicks unless input is open; a
positional mismatch (JS indexing out of range reads `undefined`, modelled by
`List.get?` returning `none`) is immediate game over; completing the stored
pattern pays `simonBetAmount * newScore` and ends the session at 10 rounds. -/
def simonButtonClick (s : GameState) (button : ℕ) : GameState :=
  if !s.simonCanClick ∨ s.simonIsShowingPattern ∨ s.simonIsGameOver then s
  else
    let newPlayerPattern := s.simonPlayerPattern ++ [button]
    let currentIndex := newPlayerPattern.length - 1
    if s.simonPattern.get? currentIndex ≠ some button then
      { s with
          simonPlayerPattern := newPlayerPattern
          simonIsGameOver := true
          simonCanClick := false }
    else if newPlayerPattern.length = s.simonPattern.length then
      let newScore := s.simonScore + 1
      let reward := s.simonBetAmount * (newScore : ℚ)
      if newScore ≥ 10 then
        { s with
            simonPlayerPattern := newPlayerPattern
            simonScore := newScore
            money := s.money + reward
            simonCanClick := false
            simonIsGameOver := true }
      else
        { s with
            simonPlayerPattern := newPlayerPattern
            simonScore := newScore
            money := s.money + reward
            simonCanClick := false }
    else { s with simonPlayerPattern := newPlayerPattern }

/-- Folding a sequence of Simon button clicks through the store. -/
def clickRun (s : GameState) (buttons : List ℕ) : GameState :=
  buttons.foldl simonButtonClick s

/-! ## Room transition -/

/-- `teleportToRoom(room)`: switch rooms and clear the per-room minigame and
bet state (the auto-save side effect writes to external storage only). -/
def teleportToRoom (s : GameState) (room : RoomType) : GameState :=
  { s with
      currentRoom := room
      nearPortal := none
      isNearMiniGame := false
      isMiniGameActive := false
      isNearBasketball := false
      isBasketballActive := false
      isHoldingBall := false
      throwPower := 0
      isChargingThrow := false
      basketballScore := 0
      basketballAttempts := 0
      basketballBetAmount := 0
      basketballBetPlaced := false
      lastBasketballResult := none
      diceResult := none
      currentBet := none
      betAmount := 0
      shouldTriggerRoll := false }

/-! ## Dice frame loop (`DiceGame` `useFrame`) -/

/-- The per-frame physics readout of one die: its linear velocity, angular
velocity and orientation after the physics step. -/
structure DieFrame where
  velocity : Vec3
  angularVelocity : Vec3
  quat : Quat
deriving DecidableEq, Repr

/-- One die makes `allSettled` false when
`speed > SETTLE_THRESHOLD || angularSpeed > SETTLE_THRESHOLD`
(lengths compared via their squares). -/
def dieUnsettled (d : DieFrame) : Prop :=
  normSq d.velocity > SETTLE_THRESHOLD ^ 2 ∨
  normSq d.angularVelocity > SETTLE_THRESHOLD ^ 2

instance (d : DieFrame) : Decidable (dieUnsettled d) := by
  unfold dieUnsettled
  infer_instance

/-- A die is settled when it does not block `allSettled`. -/
def dieSettled (d : DieFrame) : Prop := ¬ dieUnsettled d

instance (d : DieFrame) : Decidable (dieSettled d) := by
  unfold dieSettled
  infer_instance

/-- Engine-local refs of the dice frame loop. -/
structure DiceRollState where
  rollTime : ℚ
  hasSettled : Bool
deriving DecidableEq, Repr

/-- The store-visible part of one `DiceGame` frame while in the dice room:
when rolling, advance the roll clock, test settlement of both dice, and run
the resolution block once when all dice are settled or the roll clock
exceeds `MAX_ROLL_TIME`; outside a roll the frame only steps physics and
meshes, leaving the store unchanged. -/
def diceFrameStep (s : GameState) (r : DiceRollState) (d1 d2 : DieFrame)
    (delta : ℚ) : GameState × DiceRollState :=
  if s.isRolling then
    let rollTime := r.rollTime + delta
    let allSettled := dieSettled d1 ∧ dieSettled d2
    if (allSettled ∨ rollTime > MAX_ROLL_TIME) ∧ r.hasSettled = false then
      (diceResolve s (getDiceValue d1.quat) (getDiceValue d2.quat),
        { rollTime := rollTime, hasSettled := true })
    else (s, { rollTime := rollTime, hasSettled := r.hasSettled })
  else (s, r)

/-! ## Basketball scoring (`BasketballGame` `checkScore`) -/

/-- Engine-local refs of the basketball throw loop that `checkScore`
reads and writes. -/
structure ThrowRefs where
  lastBallY : ℚ
  hasScoreChecked : Bool
deriving DecidableEq, Repr

/-- The hoop center used by `checkScore`: the hoop anchor raised by the rim
height `3.05` and shifted by `0.3` in `z`. -/
def hoopCenter (hoopPosition : Vec3) : Vec3 :=
  { x := hoopPosition.x
    y := hoopPosition.y + 305 / 100
    z := hoopPosition.z + 3 / 10 }

/-- `checkScore()`: early-return once the throw already scored; otherwise a
score requires horizontal distance to the hoop axis under `0.35` (squared
comparison) together with a strict above-to-below crossing of the rim
height between the previous and current frame.  On a score the store score
increments, the checked flag latches, and a placed bet pays double; the
previous-height ref is updated on every non-latched call. -/
def checkScore (hc : Vec3) (ballPos : Vec3) (st : GameState × ThrowRefs) :
    GameState × ThrowRefs :=
  let s := st.1
  let r := st.2
  if r.hasScoreChecked then st
  else
    let dx := ballPos.x - hc.x
    let dz := ballPos.z - hc.z
    if dx ^ 2 + dz ^ 2 < (35 / 100 : ℚ) ^ 2 ∧ r.lastBallY > hc.y ∧ ballPos.y < hc.y then
      ({ s with
          basketballScore := s.basketballScore + 1
          money :=
            if s.basketballBetPlaced then s.money + s.basketballBetAmount * 2
            else s.money },
        { lastBallY := ballPos.y, hasScoreChecked := true })
    else (s, { r with lastBallY := ballPos.y })

/-- Running `checkScore` over the successive ball positions of one throw. -/
def runThrow (hc : Vec3) (st : GameState × ThrowRefs) (positions : List Vec3) :
    GameState × ThrowRefs :=
  positions.foldl (fun acc p => checkScore hc p acc) st

/-! ## Player controller frame (`Player` `useFrame`) -/

/-- `STAMINA_CONFIG` (non-regenerating). -/
def staminaDrainPerStep : ℚ := 1 / 2
def staminaSprintMultiplier : ℚ := 5 / 2
def staminaJumpCost : ℚ := 12
def minStaminaToMove : ℚ := 1 / 10

/-- `PLAYER_CONFIG` movement constants. -/
def playerMoveSpeed : ℚ := 15
def playerSprintMultiplier : ℚ := 2
def playerJumpForce : ℚ := 8
def playerSpawnHeight : ℚ := 1 / 2

/-- Held-key flags read by the player frame. -/
structure Keys where
  forward : Bool
  backward : Bool
  left : Bool
  right : Bool
  sprint : Bool
  jump : Bool
deriving DecidableEq, Repr

/-- Player refs and rigid-body readout used by one frame. -/
structure PlayerState where
  stamina : ℚ
  stepAccumulator : ℚ
  steps : ℕ
  canJump : Bool
  velX : ℚ
  velY : ℚ
  velZ : ℚ
  posY : ℚ
deriving DecidableEq, Repr

/-- The movement speed of one frame: the base speed, doubled when
sprinting, and `0` once stamina is at or below the minimum-to-move
threshold (`canMove` is `stamina > minStaminaToMove`). -/
def playerSpeed (stamina : ℚ) (isSprinting : Bool) : ℚ :=
  if stamina > minStaminaToMove then
    if isSprinting then playerMoveSpeed * playerSprintMultiplier
    else playerMoveSpeed
  else 0

/-- One horizontal component of the movement velocity: the sum of the
speed-scaled direction components selected by the held keys (`fc`/`rc` are
the matching components of the camera-derived `forward`/`right` vectors). -/
def moveComponent (keys : Keys) (fc rc speed : ℚ) : ℚ :=
  (if keys.forward then fc * speed else 0) +
  (if keys.backward then fc * (-speed) else 0) +
  (if keys.left then rc * (-speed) else 0) +
  (if keys.right then rc * speed else 0)

/-- The step-based stamina consumption block: while moving on the ground
with stamina available, accumulate scaled time and, each time the
accumulator reaches `0.4`, drain a fixed cost (amplified under sprint),
clamped at `0`.  Stamina is never incremented. -/
def drainPhase (isMoving isSprinting isGrounded canMove : Bool) (delta : ℚ)
    (p : PlayerState) : PlayerState :=
  if isMoving && isGrounded && canMove then
    let stepRate : ℚ := if isSprinting then 22 / 10 else 1
    let acc := p.stepAccumulator + delta * stepRate
    if acc ≥ 4 / 10 then
      let drain :=
        staminaDrainPerStep * (if isSprinting then staminaSprintMultiplier else 1)
      { p with
          stepAccumulator := 0
          steps := p.steps + 1
          stamina := max 0 (p.stamina - drain) }
    else { p with stepAccumulator := acc }
  else p

/-- The jump block: an edge-triggered grounded jump with
`stamina > jumpCost` overwrites the vertical velocity and pays the fixed
jump cost, clamped at `0`. -/
def jumpPhase (jumpKey isGrounded : Bool) (p : PlayerState) : PlayerState :=
  if jumpKey && isGrounded && p.canJump && decide (p.stamina > staminaJumpCost) then
    { p with
        velY := playerJumpForce
        stamina := max 0 (p.stamina - staminaJumpCost)
        canJump := false }
  else p

/-- Releasing the jump key re-arms the jump edge trigger. -/
def resetCanJump (jumpKey : Bool) (q : PlayerState) : PlayerState :=
  if !jumpKey then { q with canJump := true } else q

/-- The final safety clamp of the frame: `stamina := max 0 stamina`. -/
def clampStamina (q : PlayerState) : PlayerState :=
  { q with stamina := max 0 q.stamina }

/-- One player-controller frame (movement, stamina drain, jump, final
clamp), with the camera-derived `forward`/`right` unit vectors passed in
(the source computes them from the yaw angle by trigonometry; they only
scale the horizontal velocity).  The vertical velocity is preserved by
movement and overwritten only by a jump; `canMove` is computed from the
pre-drain stamina, as in the source. -/
def playerFrame (keys : Keys) (delta : ℚ) (forward rightv : Vec3)
    (p : PlayerState) : PlayerState :=
  let isMoving : Bool := keys.forward || keys.backward || keys.left || keys.right
  let isSprinting : Bool := keys.sprint && isMoving
  let canMove : Bool := decide (p.stamina > minStaminaToMove)
  let speed := playerSpeed p.stamina isSprinting
  let p1 := { p with
                velX := moveComponent keys forward.x rightv.x speed
                velZ := moveComponent keys forward.z rightv.z speed }
  let isGrounded : Bool :=
    decide (|p1.velY| < 1 / 2) && decide (p1.posY ≤ playerSpawnHeight + 1 / 5)
  let p2 := drainPhase isMoving isSprinting isGrounded canMove delta p1
  let p3 := jumpPhase keys.jump isGrounded p2
  clampStamina (resetCanJump keys.jump p3)

/-! ## Portal interaction (`Player` `useFrame`, portal branch) -/

/-- The reward-item gate of the `minigame4` portal: the inventory must hold
the reward item of each of the three minigames. -/
def hasAllBoxes (inv : List InventoryItem) : Bool :=
  (inv.any fun item => item.minigameId = RoomType.minigame1) &&
  (inv.any fun item => item.minigameId = RoomType.minigame2) &&
  (inv.any fun item => item.minigameId = RoomType.minigame3)

/-- The portal branch of the player frame: with the interact key down and a
near portal, a `minigame4` destination is gated on `hasAllBoxes`; a failed
gate returns without touching the store, otherwise `teleportToRoom` runs.
(The reward-box branch that precedes it in the source takes priority only
when a reward box is near; it is not part of this claim and is modelled as
absent.) -/
def portalInteract (interact : Bool) (inv : List InventoryItem)
    (s : GameState) : GameState :=
  match s.nearPortal with
  | none => s
  | some portal =>
    if interact then
      if portal.targetRoom = RoomType.minigame4 ∧ hasAllBoxes inv = false then s
      else teleportToRoom s portal.targetRoom
    else s

/-! ## Exposed-action sequences (economy invariant) -/

/-- The exposed store actions that move money, plus the dice-flow actions
needed to reach a dice resolution; random draws and derived die values are
arguments. -/
inductive StoreAction
  | setMoney (amount : ℚ)
  | addMoney (amount : ℚ)
  | removeMoney (amount : ℚ)
  | placeBet (predictedSum amount : ℚ)
  | triggerRoll
  | diceResolve (v1 v2 : ℕ)
  | placeBasketballBet (amount : ℚ)
  | resolveBasketballBet (scored : Bool)
  | startSimonGame (amount : ℚ)
  | addToSimonPattern (newButton : ℕ)
  | simonButtonClick (button : ℕ)
deriving DecidableEq, Repr

def applyAction (s : GameState) : StoreAction → GameState
  | StoreAction.setMoney a => setMoney s a
  | StoreAction.addMoney a => addMoney s a
  | StoreAction.removeMoney a => (removeMoney s a).2
  | StoreAction.placeBet p a => (placeBet s p a).2
  | StoreAction.triggerRoll => triggerRoll s
  | StoreAction.diceResolve v1 v2 => diceResolve s v1 v2
  | StoreAction.placeBasketballBet a => (placeBasketballBet s a).2
  | StoreAction.resolveBasketballBet scored => resolveBasketballBet s scored
  | StoreAction.startSimonGame a => (startSimonGame s a).2
  | StoreAction.addToSimonPattern b => addToSimonPattern s b
  | StoreAction.simonButtonClick b => simonButtonClick s b

def runActions (s : GameState) (acts : List StoreAction) : GameState :=
  acts.foldl applyAction s

/-- A credit passed to `addMoney` is nonnegative (the in-repo callers pass
winnings and refunds). -/
def CreditsNonneg (acts : List StoreAction) : Prop :=
  ∀ a : ℚ, StoreAction.addMoney a ∈ acts → 0 ≤ a

/-- Inductive invariant of the exposed actions: the ledger and every stored
wager amount are nonnegative. -/
def MoneyInv (s : GameState) : Prop :=
  0 ≤ s.money ∧ 0 ≤ s.lastBetAmountForResult ∧
  0 ≤ s.basketballBetAmount ∧ 0 ≤ s.simonBetAmount

/-! ## Dice end-to-end scenario -/

/-- `clearTriggerRoll()`. -/
def clearTriggerRoll (s : GameState) : GameState :=
  { s with shouldTriggerRoll := false }

/-- The store-visible part of `executeRoll`: enter the rolling state and
clear the previous result (the engine also resets its local roll clock and
settle latch and randomizes the dice bodies). -/
def executeRollStore (s : GameState) : GameState :=
  { s with isRolling := true, diceResult := none }

/-- A die at rest whose orientation is a quarter-turn about `z` (the
unnormalized quaternion `(0,0,1,1)`), bringing the `+x` face — printed
value `3` — up. -/
def dieShowing3 : DieFrame :=
  { velocity := ⟨0, 0, 0⟩, angularVelocity := ⟨0, 0, 0⟩, quat := ⟨0, 0, 1, 1⟩ }

/-- A die at rest rotated a quarter-turn the other way about `z`, bringing
the `-x` face — printed value `4` — up. -/
def dieShowing4 : DieFrame :=
  { velocity := ⟨0, 0, 0⟩, angularVelocity := ⟨0, 0, 0⟩, quat := ⟨0, 0, -1, 1⟩ }

/-- The end-to-end dice scenario: from the initial balance `100`, place the
bet `{predicted: 7, amount: 20}`. -/
def diceScenarioAfterBet : GameState := (placeBet initialGameState 7 20).2

/-- The scenario continued: trigger and execute the roll, then run one
frame in which both dice are settled showing `3` and `4` (total `7`). -/
def diceScenarioFinal : GameState :=
  (diceFrameStep
      (executeRollStore (clearTriggerRoll (triggerRoll diceScenarioAfterBet)))
      { rollTime := 0, hasSettled := false } dieShowing3 dieShowing4 1).1

/-! ## Concrete witness states -/

/-- A die translating at exactly the settle-threshold speed `0.1`, with no
spin. -/
def dieAtThreshold : DieFrame :=
  { velocity := ⟨1 / 10, 0, 0⟩, angularVelocity := ⟨0, 0, 0⟩, quat := ⟨0, 0, 0, 1⟩ }

/-- A Simon session ready for input on the one-element pattern `[2]`. -/
def simonReadyState : GameState :=
  { initialGameState with simonPattern := [2], simonCanClick := true }

/-- The full reward inventory: one item per minigame. -/
def fullInventory : List InventoryItem :=
  [⟨RoomType.minigame1⟩, ⟨RoomType.minigame2⟩, ⟨RoomType.minigame3⟩]

/-- A store state standing in front of the gated `minigame4` portal. -/
def nearMinigame4State : GameState :=
  { initialGameState with nearPortal := some ⟨RoomType.minigame4, ⟨0, 0, 0⟩⟩ }

/-! ## Helper lemmas -/

/-- The second component of the face fold is the initial value or the
printed value of one of the folded faces. -/
theorem diceFold_snd_mem (q : Quat) (faces : List (Vec3 × ℕ)) :
    ∀ acc : Option ℚ × ℕ,
      (faces.foldl (diceFaceStep q) acc).2 = acc.2 ∨
      ∃ f ∈ faces, (faces.foldl (diceFaceStep q) acc).2 = f.2 := by
  induction faces with
  | nil => intro acc; exact Or.inl rfl
  | cons f fs ih =>
    intro acc
    have hstep : (diceFaceStep q acc f).2 = acc.2 ∨ (diceFaceStep q acc f).2 = f.2 := by
      obtain ⟨o, v⟩ := acc
      cases o with
      | none => exact Or.inr rfl
      | some m =>
        unfold diceFaceStep
        by_cases h : (applyQuaternion q f.1).y > m
        · simp [h]
        · simp [h]
    have h := ih (diceFaceStep q acc f)
    rw [List.foldl_cons]
    rcases h with h | ⟨g, hg, hgeq⟩
    · rcases hstep with h2 | h2
      · exact Or.inl (h.trans h2)
      · exact Or.inr ⟨f, List.mem_cons_self f fs, h.trans h2⟩
    · exact Or.inr ⟨g, List.mem_cons_of_mem f hg, hgeq⟩

/-- Every derived die face value lies in `1..6`. -/
theorem getDiceValue_range (q : Quat) : 1 ≤ getDiceValue q ∧ getDiceValue q ≤ 6 := by
  unfold getDiceValue
  rcases diceFold_snd_mem q DICE_FACES ((none : Option ℚ), 1) with h | ⟨f, hf, heq⟩
  · rw [h]; exact ⟨le_refl 1, by norm_num⟩
  · rw [heq]
    fin_cases hf <;> simp

/-! ## C1: `placeBet` success and failure -/

/-- C1 (amended): for every bet amount `a` with `0 < a ≤ money` and a
predicted sum within `2..12`, `placeBet` returns `true` and decreases
`money` by exactly `a`; for `a > money` or `a ≤ 0` it returns `false` and
leaves `money` unchanged. -/
theorem placeBet_success_and_failure (s : GameState) (predictedSum amount : ℚ) :
    (0 < amount → amount ≤ s.money → 2 ≤ predictedSum → predictedSum ≤ 12 →
      (placeBet s predictedSum amount).1 = true ∧
      (placeBet s predictedSum amount).2.money = s.money - amount) ∧
    (s.money < amount ∨ amount ≤ 0 →
      (placeBet s predictedSum amount).1 = false ∧
      (placeBet s predictedSum amount).2.money = s.money) := by
  constructor
  · intro h1 h2 h3 h4
    unfold placeBet
    rw [if_neg, if_neg]
    · exact ⟨rfl, rfl⟩
    · push_neg
      exact ⟨h3, h4⟩
    · push_neg
      exact ⟨by linarith, h1⟩
  · intro h
    unfold placeBet
    rw [if_pos h]
    exact ⟨rfl, rfl⟩

/-- C1 witness: at the initial balance `100`, betting `20` on `7` succeeds
and debits exactly `20`, while betting `200` fails and leaves money at `100`. -/
theorem placeBet_success_and_failure_witness :
    ((placeBet initialGameState 7 20).1 = true ∧
      (placeBet initialGameState 7 20).2.money = initialGameState.money - 20) ∧
    ((placeBet initialGameState 7 200).1 = false ∧
      (placeBet initialGameState 7 200).2.money = initialGameState.money) :=
  ⟨(placeBet_success_and_failure initialGameState 7 20).1 (by norm_num)
      (by norm_num [initialGameState]) (by norm_num) (by norm_num),
    (placeBet_success_and_failure initialGameState 7 200).2
      (Or.inl (by norm_num [initialGameState]))⟩

/-- C1 counterexample: with the initial balance `100`, the amount `20`
satisfies `0 < 20 ≤ money`, yet `placeBet(13, 20)` returns `false` (and the
balance stays `100`): success needs the predicted sum to lie in `2..12` as
well. -/
theorem placeBet_claim_counterexample :
    0 < (20 : ℚ) ∧ (20 : ℚ) ≤ initialGameState.money ∧
    (placeBet initialGameState 13 20).1 = false ∧
    (placeBet initialGameState 13 20).2.money = initialGameState.money := by
  refine ⟨by norm_num, by norm_num [initialGameState], ?_, ?_⟩ <;>
    norm_num [placeBet, initialGameState]

/-! ## C10: `placeBet` rejects out-of-range predictions -/

/-- C10: `placeBet` requires the predicted sum to lie in `2..12`; outside
that range it returns `false` and the whole store — in particular `money`,
`currentBet` and `betAmount` — is unchanged, whatever the amount. -/
theorem placeBet_rejects_out_of_range (s : GameState) (predictedSum amount : ℚ)
    (h : predictedSum < 2 ∨ 12 < predictedSum) :
    (placeBet s predictedSum amount).1 = false ∧
    (placeBet s predictedSum amount).2 = s := by
  unfold placeBet
  by_cases h1 : s.money < amount ∨ amount ≤ 0
  · rw [if_pos h1]
    exact ⟨rfl, rfl⟩
  · rw [if_neg h1, if_pos h]
    exact ⟨rfl, rfl⟩

/-- C10 witness: betting `20` on the impossible sum `13` from the initial
state fails and leaves the store untouched, although `0 < 20 ≤ 100`. -/
theorem placeBet_rejects_out_of_range_witness :
    (placeBet initialGameState 13 20).1 = false ∧
    (placeBet initialGameState 13 20).2 = initialGameState :=
  placeBet_rejects_out_of_range initialGameState 13 20 (Or.inr (by norm_num))

/-! ## C4: face values and totals are in range -/

/-- C4: for every pair of die orientations, each derived face value lies in
`1..6` and the resolved total lies in `[2, 12]`. -/
theorem dice_values_and_total_in_range (q1 q2 : Quat) :
    1 ≤ getDiceValue q1 ∧ getDiceValue q1 ≤ 6 ∧
    1 ≤ getDiceValue q2 ∧ getDiceValue q2 ≤ 6 ∧
    2 ≤ getDiceValue q1 + getDiceValue q2 ∧
    getDiceValue q1 + getDiceValue q2 ≤ 12 := by
  obtain ⟨h1, h2⟩ := getDiceValue_range q1
  obtain ⟨h3, h4⟩ := getDiceValue_range q2
  exact ⟨h1, h2, h3, h4, by omega, by omega⟩

/-! ## C3: end-to-end dice payout scenario -/

/-- C3 counterexample: in the end-to-end scenario the bet leaves `money = 80`
as claimed, and the roll resolves with total `7`, but the final balance is
`120`, not the claimed `140`: the win adds `wager * 2` on top of the
post-debit balance and the wager itself is not separately returned. -/
theorem dice_scenario_not_140 :
    diceScenarioAfterBet.money = 80 ∧
    diceScenarioFinal.diceResult = some ⟨3, 4, 0, 7⟩ ∧
    diceScenarioFinal.money ≠ 140 := by
  refine ⟨?_, ?_, ?_⟩
  · norm_num [diceScenarioAfterBet, placeBet, initialGameState]
  · norm_num [diceScenarioFinal, diceScenarioAfterBet, diceFrameStep,
      executeRollStore, clearTriggerRoll, triggerRoll, placeBet,
      initialGameState, diceResolve, dieSettled, dieUnsettled, normSq,
      SETTLE_THRESHOLD, MAX_ROLL_TIME, getDiceValue, diceFaceStep,
      DICE_FACES, applyQuaternion, dieShowing3, dieShowing4, List.foldl,
      Option.some_ne_none]
  · norm_num [diceScenarioFinal, diceScenarioAfterBet, diceFrameStep,
      executeRollStore, clearTriggerRoll, triggerRoll, placeBet,
      initialGameState, diceResolve, dieSettled, dieUnsettled, normSq,
      SETTLE_THRESHOLD, MAX_ROLL_TIME, getDiceValue, diceFaceStep,
      DICE_FACES, applyQuaternion, dieShowing3, dieShowing4, List.foldl,
      Option.some_ne_none]

/-- C3 (amended): starting with `money = 100`, placing the bet
`{predicted: 7, amount: 20}` leaves `money = 80`, and a roll that resolves
with total `7` then leaves `money = 120`: a win adds twice the wager to the
post-debit balance. -/
theorem dice_scenario_pays_double_wager :
    initialGameState.money = 100 ∧
    diceScenarioAfterBet.money = 80 ∧
    diceScenarioFinal.diceResult = some ⟨3, 4, 0, 7⟩ ∧
    diceScenarioFinal.money = 120 := by
  refine ⟨rfl, ?_, ?_, ?_⟩
  · norm_num [diceScenarioAfterBet, placeBet, initialGameState]
  · norm_num [diceScenarioFinal, diceScenarioAfterBet, diceFrameStep,
      executeRollStore, clearTriggerRoll, triggerRoll, placeBet,
      initialGameState, diceResolve, dieSettled, dieUnsettled, normSq,
      SETTLE_THRESHOLD, MAX_ROLL_TIME, getDiceValue, diceFaceStep,
      DICE_FACES, applyQuaternion, dieShowing3, dieShowing4, List.foldl,
      Option.some_ne_none]
  · norm_num [diceScenarioFinal, diceScenarioAfterBet, diceFrameStep,
      executeRollStore, clearTriggerRoll, triggerRoll, placeBet,
      initialGameState, diceResolve, dieSettled, dieUnsettled, normSq,
      SETTLE_THRESHOLD, MAX_ROLL_TIME, getDiceValue, diceFaceStep,
      DICE_FACES, applyQuaternion, dieShowing3, dieShowing4, List.foldl,
      Option.some_ne_none]

/-! ## C2: the money ledger -/

/-- Every exposed action whose `addMoney` credit (if it is one) is
nonnegative preserves the nonnegativity invariant of the ledger and of the
stored wager amounts. -/
theorem applyAction_preserves_moneyInv (s : GameState) (act : StoreAction)
    (hs : MoneyInv s) (ha : ∀ a : ℚ, act = StoreAction.addMoney a → 0 ≤ a) :
    MoneyInv (applyAction s act) := by
  obtain ⟨h1, h2, h3, h4⟩ := hs
  cases act with
  | setMoney a =>
    exact ⟨le_max_left 0 a, h2, h3, h4⟩
  | addMoney a =>
    have h := ha a rfl
    refine ⟨?_, h2, h3, h4⟩
    show (0 : ℚ) ≤ s.money + a
    linarith
  | removeMoney a =>
    show MoneyInv (removeMoney s a).2
    unfold removeMoney
    split_ifs with h
    · refine ⟨?_, h2, h3, h4⟩
      show (0 : ℚ) ≤ s.money - a
      linarith
    · exact ⟨h1, h2, h3, h4⟩
  | placeBet p a =>
    show MoneyInv (placeBet s p a).2
    unfold placeBet
    split_ifs with h h5
    · exact ⟨h1, h2, h3, h4⟩
    · exact ⟨h1, h2, h3, h4⟩
    · push_neg at h
      refine ⟨?_, h2, h3, h4⟩
      show (0 : ℚ) ≤ s.money - a
      linarith [h.1]
  | triggerRoll =>
    show MoneyInv (triggerRoll s)
    unfold triggerRoll
    split_ifs with h
    · exact ⟨h1, h2, h3, h4⟩
    · push_neg at h
      exact ⟨h1, le_of_lt h.2.2, h3, h4⟩
  | diceResolve v1 v2 =>
    show MoneyInv (diceResolve s v1 v2)
    simp only [diceResolve, MoneyInv]
    split_ifs with h
    · exact ⟨by dsimp only; linarith, h2, h3, h4⟩
    · exact ⟨h1, h2, h3, h4⟩
  | placeBasketballBet a =>
    show MoneyInv (placeBasketballBet s a).2
    unfold placeBasketballBet
    split_ifs with h
    · exact ⟨h1, h2, h3, h4⟩
    · push_neg at h
      refine ⟨?_, h2, ?_, h4⟩
      · show (0 : ℚ) ≤ s.money - a
        linarith [h.1]
      · show (0 : ℚ) ≤ a
        linarith [h.2]
  | resolveBasketballBet scored =>
    show MoneyInv (resolveBasketballBet s scored)
    unfold resolveBasketballBet
    split_ifs with h h5
    · exact ⟨h1, h2, h3, h4⟩
    · refine ⟨?_, h2, h3, h4⟩
      show (0 : ℚ) ≤ s.money + s.basketballBetAmount * 2
      linarith
    · exact ⟨h1, h2, h3, h4⟩
  | startSimonGame a =>
    show MoneyInv (startSimonGame s a).2
    unfold startSimonGame
    split_ifs with h
    · exact ⟨h1, h2, h3, h4⟩
    · push_neg at h
      refine ⟨?_, h2, h3, ?_⟩
      · show (0 : ℚ) ≤ s.money - a
        linarith [h.1]
      · show (0 : ℚ) ≤ a
        linarith [h.2]
  | addToSimonPattern b =>
    exact ⟨h1, h2, h3, h4⟩
  | simonButtonClick b =>
    show MoneyInv (simonButtonClick s b)
    simp only [simonButtonClick, MoneyInv]
    have hrw : (0 : ℚ) ≤ s.simonBetAmount * ((s.simonScore + 1 : ℕ) : ℚ) :=
      mul_nonneg h4 (Nat.cast_nonneg _)
    split_ifs with h h5 h6 h7
    · exact ⟨h1, h2, h3, h4⟩
    · exact ⟨h1, h2, h3, h4⟩
    · exact ⟨by dsimp only; linarith, h2, h3, h4⟩
    · exact ⟨by dsimp only; linarith, h2, h3, h4⟩
    · exact ⟨h1, h2, h3, h4⟩

/-- The invariant propagates along any action sequence whose credits are
nonnegative. -/
theorem runActions_moneyInv (acts : List StoreAction) :
    ∀ s : GameState, MoneyInv s → CreditsNonneg acts →
      MoneyInv (runActions s acts) := by
  induction acts with
  | nil => intro s hs _; exact hs
  | cons act rest ih =>
    intro s hs h
    rw [runActions, List.foldl_cons]
    have hstep : MoneyInv (applyAction s act) := by
      apply applyAction_preserves_moneyInv s act hs
      intro a haeq
      exact h a (by rw [haeq]; exact List.mem_cons_self _ _)
    exact ih (applyAction s act) hstep fun a hmem => h a (List.mem_cons_of_mem _ hmem)

/-- C2 counterexample: the exposed `addMoney` accepts a negative credit, so
the one-action sequence `addMoney (-200)` drives the ledger from the
initial `100` to `-100 < 0`: the invariant as claimed fails. -/
theorem money_ledger_negative_counterexample :
    (runActions initialGameState [StoreAction.addMoney (-200)]).money < 0 := by
  norm_num [runActions, applyAction, addMoney, initialGameState, List.foldl]

/-- C2 (amended): starting from the initial balance, after any sequence of
the exposed economy and minigame actions in which every `addMoney` credit
is nonnegative (as in all in-repo calls), `money ≥ 0` holds; and every
debit that would exceed the balance fails its action and leaves `money`
unchanged. -/
theorem money_ledger_nonneg (acts : List StoreAction)
    (hcred : CreditsNonneg acts) :
    0 ≤ (runActions initialGameState acts).money ∧
    (∀ s : GameState, ∀ p a : ℚ, s.money < a →
      ((removeMoney s a).1 = false ∧ (removeMoney s a).2.money = s.money) ∧
      ((placeBet s p a).1 = false ∧ (placeBet s p a).2.money = s.money) ∧
      ((placeBasketballBet s a).1 = false ∧
        (placeBasketballBet s a).2.money = s.money) ∧
      ((startSimonGame s a).1 = false ∧
        (startSimonGame s a).2.money = s.money)) := by
  constructor
  · have hinit : MoneyInv initialGameState := by
      refine ⟨?_, ?_, ?_, ?_⟩ <;> norm_num [initialGameState]
    exact (runActions_moneyInv acts initialGameState hinit hcred).1
  · intro s p a h
    refine ⟨?_, ?_, ?_, ?_⟩
    · unfold removeMoney
      rw [if_neg (not_le.mpr h)]
      exact ⟨rfl, rfl⟩
    · unfold placeBet
      rw [if_pos (Or.inl h)]
      exact ⟨rfl, rfl⟩
    · unfold placeBasketballBet
      rw [if_pos (Or.inl h)]
      exact ⟨rfl, rfl⟩
    · unfold startSimonGame
      rw [if_pos (Or.inl h)]
      exact ⟨rfl, rfl⟩

/-- C2 witness: the concrete session — dice bet of `20` on `7`, roll
trigger, winning resolution with `3 + 4`, then an excessive debit attempt —
keeps the ledger nonnegative, and every `500` debit from the initial
balance `100` fails with money unchanged. -/
theorem money_ledger_nonneg_witness :
    0 ≤ (runActions initialGameState
        [StoreAction.placeBet 7 20, StoreAction.triggerRoll,
          StoreAction.diceResolve 3 4, StoreAction.removeMoney 500]).money ∧
    (((removeMoney initialGameState 500).1 = false ∧
        (removeMoney initialGameState 500).2.money = initialGameState.money) ∧
      ((placeBet initialGameState 7 500).1 = false ∧
        (placeBet initialGameState 7 500).2.money = initialGameState.money) ∧
      ((placeBasketballBet initialGameState 500).1 = false ∧
        (placeBasketballBet initialGameState 500).2.money = initialGameState.money) ∧
      ((startSimonGame initialGameState 500).1 = false ∧
        (startSimonGame initialGameState 500).2.money = initialGameState.money)) := by
  have h := money_ledger_nonneg
      [StoreAction.placeBet 7 20, StoreAction.triggerRoll,
        StoreAction.diceResolve 3 4, StoreAction.removeMoney 500]
      (by intro a ha; simp at ha)
  exact ⟨h.1, h.2 initialGameState 7 500 (by norm_num [initialGameState])⟩

/-! ## C5: dice settlement and single resolution -/

/-- While not rolling, a frame leaves the store and the roll refs
unchanged. -/
theorem diceFrameStep_idle (s : GameState) (r : DiceRollState) (d1 d2 : DieFrame)
    (delta : ℚ) (h : s.isRolling = false) :
    diceFrameStep s r d1 d2 delta = (s, r) := by
  simp [diceFrameStep, h]

/-- A rolling frame whose resolution condition holds and whose settle latch
is clear runs the resolution block and latches. -/
theorem diceFrameStep_resolves (s : GameState) (r : DiceRollState) (d1 d2 : DieFrame)
    (delta : ℚ) (h1 : s.isRolling = true) (h2 : r.hasSettled = false)
    (h3 : (dieSettled d1 ∧ dieSettled d2) ∨ r.rollTime + delta > MAX_ROLL_TIME) :
    diceFrameStep s r d1 d2 delta =
      (diceResolve s (getDiceValue d1.quat) (getDiceValue d2.quat),
        { rollTime := r.rollTime + delta, hasSettled := true }) := by
  simp only [diceFrameStep, h1, h2, if_true, and_true]
  rw [if_pos h3]

/-- A rolling frame whose resolution condition fails, or whose settle latch
is already set, only advances the roll clock. -/
theorem diceFrameStep_no_resolve (s : GameState) (r : DiceRollState) (d1 d2 : DieFrame)
    (delta : ℚ) (h1 : s.isRolling = true)
    (h : ¬(((dieSettled d1 ∧ dieSettled d2) ∨ r.rollTime + delta > MAX_ROLL_TIME) ∧
        r.hasSettled = false)) :
    diceFrameStep s r d1 d2 delta =
      (s, { rollTime := r.rollTime + delta, hasSettled := r.hasSettled }) := by
  simp only [diceFrameStep, h1, if_true]
  rw [if_neg h]

/-- After the resolution block the rolling flag is clear. -/
theorem diceResolve_isRolling (s : GameState) (v1 v2 : ℕ) :
    (diceResolve s v1 v2).isRolling = false := by
  simp only [diceResolve]
  split_ifs <;> rfl

/-- C5 counterexample: a die whose linear speed is exactly the threshold
`0.1` counts as settled by the frame loop, although its speed is not below
the threshold — the settle test is `at or below`, not strictly `below`. -/
theorem die_settled_at_exact_threshold :
    dieSettled dieAtThreshold ∧
    ¬ normSq dieAtThreshold.velocity < SETTLE_THRESHOLD ^ 2 := by
  constructor
  · norm_num [dieSettled, dieUnsettled, dieAtThreshold, normSq, SETTLE_THRESHOLD]
  · norm_num [dieAtThreshold, normSq, SETTLE_THRESHOLD]

/-- C5 (amended): a die counts as settled exactly when both its linear and
angular speed are at or below the fixed threshold `0.1`; a frame resolves
the round exactly when it is rolling, not yet resolved, and either all dice
are settled or the advanced roll clock exceeds the 5-second maximum;
outside a roll a frame changes nothing; and a resolving frame clears the
rolling flag, latches the settle flag and runs the resolution block, so
resolution happens at most once per roll. -/
theorem dice_settle_and_resolve_once (s : GameState) (r : DiceRollState)
    (d1 d2 : DieFrame) (delta : ℚ) :
    (dieSettled d1 ↔
      normSq d1.velocity ≤ SETTLE_THRESHOLD ^ 2 ∧
      normSq d1.angularVelocity ≤ SETTLE_THRESHOLD ^ 2) ∧
    ((diceFrameStep s r d1 d2 delta).2.hasSettled = true ∧ r.hasSettled = false ↔
      s.isRolling = true ∧ r.hasSettled = false ∧
        ((dieSettled d1 ∧ dieSettled d2) ∨ r.rollTime + delta > MAX_ROLL_TIME)) ∧
    (s.isRolling = false → diceFrameStep s r d1 d2 delta = (s, r)) ∧
    (s.isRolling = true → r.hasSettled = false →
      ((dieSettled d1 ∧ dieSettled d2) ∨ r.rollTime + delta > MAX_ROLL_TIME) →
      (diceFrameStep s r d1 d2 delta).1.isRolling = false ∧
      (diceFrameStep s r d1 d2 delta).2.hasSettled = true ∧
      (diceFrameStep s r d1 d2 delta).1 =
        diceResolve s (getDiceValue d1.quat) (getDiceValue d2.quat)) := by
  refine ⟨?_, ?_, ?_, ?_⟩
  · simp [dieSettled, dieUnsettled, not_or, not_lt]
  · cases hs : s.isRolling
    · rw [diceFrameStep_idle s r d1 d2 delta hs]
      simp
    · cases hr : r.hasSettled
      · by_cases hc : (dieSettled d1 ∧ dieSettled d2) ∨ r.rollTime + delta > MAX_ROLL_TIME
        · rw [diceFrameStep_resolves s r d1 d2 delta hs hr hc]
          simp [hr, hc]
        · rw [diceFrameStep_no_resolve s r d1 d2 delta hs
            (fun hand => hc hand.1)]
          simp [hr, hc]
      · rw [diceFrameStep_no_resolve s r d1 d2 delta hs
          (fun hand => by rw [hr] at hand; exact absurd hand.2 (by simp))]
        simp [hr]
  · intro h
    exact diceFrameStep_idle s r d1 d2 delta h
  · intro h1 h2 h3
    rw [diceFrameStep_resolves s r d1 d2 delta h1 h2 h3]
    exact ⟨diceResolve_isRolling s _ _, rfl, rfl⟩

/-- C5 witness: a frame outside a roll changes nothing, and the first
rolling frame with both dice at rest resolves, clearing the rolling flag
and latching the settle flag. -/
theorem dice_settle_and_resolve_once_witness :
    diceFrameStep initialGameState { rollTime := 0, hasSettled := false }
        dieShowing3 dieShowing4 1 =
      (initialGameState, { rollTime := 0, hasSettled := false }) ∧
    (diceFrameStep (executeRollStore initialGameState)
        { rollTime := 0, hasSettled := false } dieShowing3 dieShowing4 1).1.isRolling
        = false ∧
    (diceFrameStep (executeRollStore initialGameState)
        { rollTime := 0, hasSettled := false } dieShowing3 dieShowing4 1).2.hasSettled
        = true := by
  have hsettled3 : dieSettled dieShowing3 := by
    norm_num [dieSettled, dieUnsettled, dieShowing3, normSq, SETTLE_THRESHOLD]
  have hsettled4 : dieSettled dieShowing4 := by
    norm_num [dieSettled, dieUnsettled, dieShowing4, normSq, SETTLE_THRESHOLD]
  refine ⟨?_, ?_, ?_⟩
  · exact (dice_settle_and_resolve_once initialGameState
      { rollTime := 0, hasSettled := false } dieShowing3 dieShowing4 1).2.2.1 rfl
  · exact ((dice_settle_and_resolve_once (executeRollStore initialGameState)
      { rollTime := 0, hasSettled := false } dieShowing3 dieShowing4 1).2.2.2 rfl rfl
      (Or.inl ⟨hsettled3, hsettled4⟩)).1
  · exact ((dice_settle_and_resolve_once (executeRollStore initialGameState)
      { rollTime := 0, hasSettled := false } dieShowing3 dieShowing4 1).2.2.2 rfl rfl
      (Or.inl ⟨hsettled3, hsettled4⟩)).2.1

/-! ## C6: basketball crossing-test scoring -/

/-- Unfolding one step of a throw trajectory. -/
theorem runThrow_cons (hc p : Vec3) (st : GameState × ThrowRefs) (ps : List Vec3) :
    runThrow hc st (p :: ps) = runThrow hc (checkScore hc p st) ps := rfl

/-- Once the per-throw score latch is set, `checkScore` is the identity
(the source early-returns before even updating the previous-height ref). -/
theorem checkScore_latched (hc p : Vec3) (s : GameState) (r : ThrowRefs)
    (h : r.hasScoreChecked = true) : checkScore hc p (s, r) = (s, r) := by
  simp [checkScore, h]

/-- The result of `checkScore` when the latch is clear and the scoring
condition holds. -/
theorem checkScore_scores (hc p : Vec3) (s : GameState) (r : ThrowRefs)
    (hr : r.hasScoreChecked = false)
    (hcond : (p.x - hc.x) ^ 2 + (p.z - hc.z) ^ 2 < (35 / 100 : ℚ) ^ 2 ∧
      r.lastBallY > hc.y ∧ p.y < hc.y) :
    checkScore hc p (s, r) =
      ({ s with
          basketballScore := s.basketballScore + 1
          money :=
            if s.basketballBetPlaced then s.money + s.basketballBetAmount * 2
            else s.money },
        { lastBallY := p.y, hasScoreChecked := true }) := by
  simp [checkScore, hr, hcond]

/-- The result of `checkScore` when the latch is clear and the scoring
condition fails: only the previous-height ref moves. -/
theorem checkScore_misses (hc p : Vec3) (s : GameState) (r : ThrowRefs)
    (hr : r.hasScoreChecked = false)
    (hcond : ¬((p.x - hc.x) ^ 2 + (p.z - hc.z) ^ 2 < (35 / 100 : ℚ) ^ 2 ∧
      r.lastBallY > hc.y ∧ p.y < hc.y)) :
    checkScore hc p (s, r) = (s, { r with lastBallY := p.y }) := by
  simp [checkScore, hr, hcond]

/-- Once the latch is set, a whole trajectory leaves everything unchanged. -/
theorem runThrow_latched (hc : Vec3) (s : GameState) (r : ThrowRefs)
    (h : r.hasScoreChecked = true) (ps : List Vec3) :
    runThrow hc (s, r) ps = (s, r) := by
  induction ps with
  | nil => rfl
  | cons p ps ih =>
    rw [runThrow_cons, checkScore_latched hc p s r h]
    exact ih

/-- Over any trajectory of one throw, the score rises by at most one. -/
theorem runThrow_score_bound (hc : Vec3) (ps : List Vec3) :
    ∀ (s : GameState) (r : ThrowRefs), r.hasScoreChecked = false →
      (runThrow hc (s, r) ps).1.basketballScore ≤ s.basketballScore + 1 := by
  induction ps with
  | nil => intro s r _; exact Nat.le_succ _
  | cons p ps ih =>
    intro s r hr
    rw [runThrow_cons]
    by_cases hcond : (p.x - hc.x) ^ 2 + (p.z - hc.z) ^ 2 < (35 / 100 : ℚ) ^ 2 ∧
        r.lastBallY > hc.y ∧ p.y < hc.y
    · rw [checkScore_scores hc p s r hr hcond,
        runThrow_latched hc _ _ rfl ps]
    · rw [checkScore_misses hc p s r hr hcond]
      exact ih s { r with lastBallY := p.y } hr

/-- C6: a score is registered exactly when the ball is horizontally within
`0.35` of the hoop axis and its height crosses the rim height from
strictly above to strictly below between the previous and current step; on
a score with a placed bet, double the wager is credited; and over any
trajectory the score rises by at most one per throw, however often the
ball crosses the rim height afterwards. -/
theorem basketball_score_crossing (hc ballPos : Vec3) (s : GameState) (r : ThrowRefs) :
    (r.hasScoreChecked = false →
      (((checkScore hc ballPos (s, r)).1.basketballScore = s.basketballScore + 1 ∧
          (checkScore hc ballPos (s, r)).2.hasScoreChecked = true) ↔
        ((ballPos.x - hc.x) ^ 2 + (ballPos.z - hc.z) ^ 2 < (35 / 100 : ℚ) ^ 2 ∧
          r.lastBallY > hc.y ∧ ballPos.y < hc.y))) ∧
    (r.hasScoreChecked = false →
      (ballPos.x - hc.x) ^ 2 + (ballPos.z - hc.z) ^ 2 < (35 / 100 : ℚ) ^ 2 →
      r.lastBallY > hc.y → ballPos.y < hc.y → s.basketballBetPlaced = true →
      (checkScore hc ballPos (s, r)).1.money = s.money + s.basketballBetAmount * 2) ∧
    (∀ ps : List Vec3, r.hasScoreChecked = false →
      (runThrow hc (s, r) ps).1.basketballScore ≤ s.basketballScore + 1) := by
  refine ⟨?_, ?_, ?_⟩
  · intro hr
    by_cases hcond : (ballPos.x - hc.x) ^ 2 + (ballPos.z - hc.z) ^ 2 < (35 / 100 : ℚ) ^ 2 ∧
        r.lastBallY > hc.y ∧ ballPos.y < hc.y
    · rw [checkScore_scores hc ballPos s r hr hcond]
      simp [hcond]
    · rw [checkScore_misses hc ballPos s r hr hcond]
      simp [hcond, hr]
  · intro hr hdist hlast hcur hbet
    rw [checkScore_scores hc ballPos s r hr ⟨hdist, hlast, hcur⟩]
    simp [hbet]
  · intro ps hr
    exact runThrow_score_bound hc ps s r hr

/-- C6 witness: with a placed `10` bet, a ball crossing the rim plane
inside the radius credits `20`; and the synthetic trajectory that crosses
the rim height twice still scores at most once. -/
theorem basketball_score_crossing_witness :
    (checkScore ⟨0, 3, 0⟩ ⟨0, 2, 0⟩
        ((placeBasketballBet initialGameState 10).2,
          { lastBallY := 4, hasScoreChecked := false })).1.money =
      (placeBasketballBet initialGameState 10).2.money +
        (placeBasketballBet initialGameState 10).2.basketballBetAmount * 2 ∧
    (runThrow ⟨0, 3, 0⟩
        ((placeBasketballBet initialGameState 10).2,
          { lastBallY := 4, hasScoreChecked := false })
        [⟨0, 2, 0⟩, ⟨0, 4, 0⟩, ⟨0, 2, 0⟩]).1.basketballScore ≤
      (placeBasketballBet initialGameState 10).2.basketballScore + 1 := by
  constructor
  · exact (basketball_score_crossing ⟨0, 3, 0⟩ ⟨0, 2, 0⟩
      (placeBasketballBet initialGameState 10).2
      { lastBallY := 4, hasScoreChecked := false }).2.1 rfl (by norm_num)
      (by norm_num) (by norm_num)
      (by norm_num [placeBasketballBet, initialGameState])
  · exact (basketball_score_crossing ⟨0, 3, 0⟩ ⟨0, 2, 0⟩
      (placeBasketballBet initialGameState 10).2
      { lastBallY := 4, hasScoreChecked := false }).2.2
      [⟨0, 2, 0⟩, ⟨0, 4, 0⟩, ⟨0, 2, 0⟩] rfl

/-! ## C7: Simon pattern verification -/

/-- After the terminal game-over flag is set, a click is ignored entirely. -/
theorem simonButtonClick_gameOver (s : GameState) (b : ℕ)
    (h : s.simonIsGameOver = true) : simonButtonClick s b = s := by
  unfold simonButtonClick
  rw [if_pos (Or.inr (Or.inr h))]

/-- After game over, any sequence of clicks is ignored. -/
theorem clickRun_gameOver (s : GameState) (h : s.simonIsGameOver = true) :
    ∀ bs : List ℕ, clickRun s bs = s := by
  intro bs
  induction bs with
  | nil => rfl
  | cons b bs ih =>
    rw [show clickRun s (b :: bs) = clickRun (simonButtonClick s b) bs from rfl,
      simonButtonClick_gameOver s b h]
    exact ih

/-- A correct click that does not yet complete the pattern only appends to
the player input. -/
theorem simonButtonClick_correct_mid (s : GameState) (b : ℕ)
    (hcan : s.simonCanClick = true) (hshow : s.simonIsShowingPattern = false)
    (hgo : s.simonIsGameOver = false)
    (hidx : s.simonPattern.get? s.simonPlayerPattern.length = some b)
    (hlen : s.simonPlayerPattern.length + 1 ≠ s.simonPattern.length) :
    simonButtonClick s b =
      { s with simonPlayerPattern := s.simonPlayerPattern ++ [b] } := by
  unfold simonButtonClick
  rw [if_neg (by simp [hcan, hshow, hgo])]
  rw [if_neg (by simpa using hidx)]
  rw [if_neg (by simpa using hlen)]

/-- A correct click that completes the stored pattern increments the round
score and credits `wager * newScore` (in both the capped and the normal
branch). -/
theorem simonButtonClick_completes (s : GameState) (b : ℕ)
    (hcan : s.simonCanClick = true) (hshow : s.simonIsShowingPattern = false)
    (hgo : s.simonIsGameOver = false)
    (hidx : s.simonPattern.get? s.simonPlayerPattern.length = some b)
    (hlen : s.simonPlayerPattern.length + 1 = s.simonPattern.length) :
    (simonButtonClick s b).simonScore = s.simonScore + 1 ∧
    (simonButtonClick s b).money =
      s.money + s.simonBetAmount * ((s.simonScore + 1 : ℕ) : ℚ) := by
  unfold simonButtonClick
  rw [if_neg (by simp [hcan, hshow, hgo])]
  rw [if_neg (by simpa using hidx)]
  rw [if_pos (by simpa using hlen)]
  by_cases h10 : s.simonScore + 1 ≥ 10
  · rw [if_pos h10]
    exact ⟨rfl, rfl⟩
  · rw [if_neg h10]
    exact ⟨rfl, rfl⟩

/-- A wrong click sets the terminal game-over flag and closes input. -/
theorem simonButtonClick_wrong (s : GameState) (b : ℕ)
    (hcan : s.simonCanClick = true) (hshow : s.simonIsShowingPattern = false)
    (hgo : s.simonIsGameOver = false)
    (hne : s.simonPattern.get? s.simonPlayerPattern.length ≠ some b) :
    simonButtonClick s b =
      { s with
          simonPlayerPattern := s.simonPlayerPattern ++ [b]
          simonIsGameOver := true
          simonCanClick := false } := by
  unfold simonButtonClick
  rw [if_neg (by simp [hcan, hshow, hgo])]
  rw [if_pos (by simpa using hne)]

/-- Feeding the remaining suffix of the stored pattern, click by click and
positionally correct, completes the round: the score increments once and
`wager * (score + 1)` is credited. -/
theorem clickRun_correct_completion (rest : List ℕ) :
    ∀ s : GameState, s.simonCanClick = true → s.simonIsShowingPattern = false →
      s.simonIsGameOver = false → rest ≠ [] →
      s.simonPattern = s.simonPlayerPattern ++ rest →
      (clickRun s rest).simonScore = s.simonScore + 1 ∧
      (clickRun s rest).money =
        s.money + s.simonBetAmount * ((s.simonScore + 1 : ℕ) : ℚ) := by
  induction rest with
  | nil => intro s _ _ _ hne _; exact absurd rfl hne
  | cons b rest ih =>
    intro s hcan hshow hgo _ hpat
    have hidx : s.simonPattern.get? s.simonPlayerPattern.length = some b := by
      rw [hpat, List.get?_eq_getElem?, List.getElem?_append_right (le_refl _), ← List.get?_eq_getElem?]
      simp
    cases rest with
    | nil =>
      have hlen : s.simonPlayerPattern.length + 1 = s.simonPattern.length := by
        rw [hpat]
        simp
      exact simonButtonClick_completes s b hcan hshow hgo hidx hlen
    | cons c cs =>
      have hlen : s.simonPlayerPattern.length + 1 ≠ s.simonPattern.length := by
        rw [hpat]
        simp
      rw [show clickRun s (b :: c :: cs) = clickRun (simonButtonClick s b) (c :: cs)
        from rfl]
      rw [simonButtonClick_correct_mid s b hcan hshow hgo hidx hlen]
      exact ih { s with simonPlayerPattern := s.simonPlayerPattern ++ [b] }
        hcan hshow hgo (by simp)
        (by rw [hpat, List.append_assoc]; rfl)

/-- C7: with the stored pattern of length `n`, input open and no clicks yet
(and the game-flow relation `n = score + 1`, maintained by
`addToSimonPattern` adding one button per completed round), supplying the
pattern itself as the `n` clicks completes the round, increments the round
score and credits `wager * n`; and from any input-open state a single
incorrect click immediately sets the terminal game-over flag, after which
every click leaves the state unchanged. -/
theorem simon_correct_round_and_wrong_click (s : GameState)
    (hcan : s.simonCanClick = true) (hshow : s.simonIsShowingPattern = false)
    (hgo : s.simonIsGameOver = false) (hstart : s.simonPlayerPattern = [])
    (hlen : s.simonPattern.length = s.simonScore + 1) :
    ((clickRun s s.simonPattern).simonScore = s.simonScore + 1 ∧
      (clickRun s s.simonPattern).money =
        s.money + s.simonBetAmount * ((s.simonPattern.length : ℕ) : ℚ)) ∧
    (∀ s2 : GameState, ∀ b : ℕ, s2.simonCanClick = true →
      s2.simonIsShowingPattern = false → s2.simonIsGameOver = false →
      s2.simonPattern.get? s2.simonPlayerPattern.length ≠ some b →
      (simonButtonClick s2 b).simonIsGameOver = true ∧
      ∀ bs : List ℕ, clickRun (simonButtonClick s2 b) bs = simonButtonClick s2 b) := by
  constructor
  · have hne : s.simonPattern ≠ [] := by
      intro hnil
      rw [hnil] at hlen
      simp at hlen
    have h := clickRun_correct_completion s.simonPattern s hcan hshow hgo hne
      (by rw [hstart]; rfl)
    refine ⟨h.1, ?_⟩
    rw [hlen]
    exact h.2
  · intro s2 b hcan2 hshow2 hgo2 hne2
    have hw := simonButtonClick_wrong s2 b hcan2 hshow2 hgo2 hne2
    constructor
    · rw [hw]
    · intro bs
      exact clickRun_gameOver (simonButtonClick s2 b) (by rw [hw]) bs

/-- C7 witness: on the ready session with pattern `[2]`, clicking `2`
completes round one (score `1`, `+10`), while clicking `3` first is
immediate game over. -/
theorem simon_correct_round_and_wrong_click_witness :
    (clickRun simonReadyState simonReadyState.simonPattern).simonScore =
      simonReadyState.simonScore + 1 ∧
    (simonButtonClick simonReadyState 3).simonIsGameOver = true := by
  have h := simon_correct_round_and_wrong_click simonReadyState rfl rfl rfl rfl rfl
  exact ⟨h.1.1, (h.2 simonReadyState 3 rfl rfl rfl (by decide)).1⟩

/-! ## C8: stamina monotonicity and exhausted movement -/

/-- The movement speed is `0` once stamina is at or below the
minimum-to-move threshold. -/
theorem playerSpeed_exhausted (stamina : ℚ) (isSprinting : Bool)
    (h : stamina ≤ minStaminaToMove) : playerSpeed stamina isSprinting = 0 := by
  unfold playerSpeed
  rw [if_neg (not_lt.mpr h)]

/-- With speed `0`, every key combination yields a zero velocity component. -/
theorem moveComponent_zero_speed (keys : Keys) (fc rc : ℚ) :
    moveComponent keys fc rc 0 = 0 := by
  unfold moveComponent
  split_ifs <;> ring

/-- The drain block never raises stamina and keeps it nonnegative. -/
theorem drainPhase_stamina (m sp g c : Bool) (delta : ℚ) (q : PlayerState)
    (h : 0 ≤ q.stamina) :
    (drainPhase m sp g c delta q).stamina ≤ q.stamina ∧
    0 ≤ (drainPhase m sp g c delta q).stamina := by
  simp only [drainPhase]
  split_ifs <;>
    first
      | exact ⟨le_refl _, h⟩
      | exact ⟨max_le h
            (by first
              | (unfold staminaDrainPerStep staminaSprintMultiplier; linarith)
              | (unfold staminaDrainPerStep; linarith)),
          le_max_left _ _⟩

/-- The jump block never raises stamina and keeps it nonnegative. -/
theorem jumpPhase_stamina (j g : Bool) (q : PlayerState) (h : 0 ≤ q.stamina) :
    (jumpPhase j g q).stamina ≤ q.stamina ∧ 0 ≤ (jumpPhase j g q).stamina := by
  unfold jumpPhase
  split_ifs
  · exact ⟨max_le h (by unfold staminaJumpCost; linarith), le_max_left _ _⟩
  · exact ⟨le_refl _, h⟩

/-- Neither stamina block nor the frame tail touches the horizontal
velocity. -/
theorem drainPhase_velX (m sp g c : Bool) (delta : ℚ) (q : PlayerState) :
    (drainPhase m sp g c delta q).velX = q.velX := by
  simp only [drainPhase]
  split_ifs <;> rfl

theorem drainPhase_velZ (m sp g c : Bool) (delta : ℚ) (q : PlayerState) :
    (drainPhase m sp g c delta q).velZ = q.velZ := by
  simp only [drainPhase]
  split_ifs <;> rfl

theorem jumpPhase_velX (j g : Bool) (q : PlayerState) :
    (jumpPhase j g q).velX = q.velX := by
  unfold jumpPhase
  split_ifs <;> rfl

theorem jumpPhase_velZ (j g : Bool) (q : PlayerState) :
    (jumpPhase j g q).velZ = q.velZ := by
  unfold jumpPhase
  split_ifs <;> rfl

theorem resetCanJump_stamina (j : Bool) (q : PlayerState) :
    (resetCanJump j q).stamina = q.stamina := by
  unfold resetCanJump
  split_ifs <;> rfl

theorem resetCanJump_velX (j : Bool) (q : PlayerState) :
    (resetCanJump j q).velX = q.velX := by
  unfold resetCanJump
  split_ifs <;> rfl

theorem resetCanJump_velZ (j : Bool) (q : PlayerState) :
    (resetCanJump j q).velZ = q.velZ := by
  unfold resetCanJump
  split_ifs <;> rfl

theorem clampStamina_stamina (q : PlayerState) :
    (clampStamina q).stamina = max 0 q.stamina := rfl

theorem clampStamina_velX (q : PlayerState) : (clampStamina q).velX = q.velX := rfl

theorem clampStamina_velZ (q : PlayerState) : (clampStamina q).velZ = q.velZ := rfl

/-- The drain, jump and final-clamp pipeline never raises stamina and keeps
it nonnegative. -/
theorem frame_stamina_helper (j g m sp c : Bool) (delta : ℚ) (q : PlayerState)
    (h : 0 ≤ q.stamina) :
    max 0 (jumpPhase j g (drainPhase m sp g c delta q)).stamina ≤ q.stamina ∧
    0 ≤ max 0 (jumpPhase j g (drainPhase m sp g c delta q)).stamina := by
  obtain ⟨hd1, hd2⟩ := drainPhase_stamina m sp g c delta q h
  obtain ⟨hj1, hj2⟩ := jumpPhase_stamina j g _ hd2
  constructor
  · rw [max_eq_right hj2]
    exact hj1.trans hd1
  · exact le_max_left _ _

/-- C8: within one frame of the player controller, stamina never increases
(it is only drained by grounded movement, amplified under sprint, and by
the jump cost) and stays clamped at `0`; and on a frame starting with
stamina at or below the minimum-to-move threshold `0.1`, both horizontal
velocity components are exactly `0`. -/
theorem player_stamina_monotone_and_exhaustion (keys : Keys) (delta : ℚ)
    (forward rightv : Vec3) (p : PlayerState) (hst : 0 ≤ p.stamina) :
    (playerFrame keys delta forward rightv p).stamina ≤ p.stamina ∧
    0 ≤ (playerFrame keys delta forward rightv p).stamina ∧
    (p.stamina ≤ minStaminaToMove →
      (playerFrame keys delta forward rightv p).velX = 0 ∧
      (playerFrame keys delta forward rightv p).velZ = 0) := by
  refine ⟨?_, ?_, ?_⟩
  · simp only [playerFrame]
    rw [clampStamina_stamina, resetCanJump_stamina]
    refine (frame_stamina_helper _ _ _ _ _ delta _ ?_).1
    exact hst
  · simp only [playerFrame]
    rw [clampStamina_stamina, resetCanJump_stamina]
    refine (frame_stamina_helper _ _ _ _ _ delta _ ?_).2
    exact hst
  · intro hex
    constructor
    · simp only [playerFrame]
      rw [clampStamina_velX, resetCanJump_velX, jumpPhase_velX, drainPhase_velX]
      dsimp only
      rw [playerSpeed_exhausted p.stamina _ hex, moveComponent_zero_speed]
    · simp only [playerFrame]
      rw [clampStamina_velZ, resetCanJump_velZ, jumpPhase_velZ, drainPhase_velZ]
      dsimp only
      rw [playerSpeed_exhausted p.stamina _ hex, moveComponent_zero_speed]

/-- C8 witness: a sprinting forward frame from full stamina does not raise
stamina, and a frame starting with stamina `0.05` ≤ `0.1` has zero
horizontal velocity. -/
theorem player_stamina_monotone_and_exhaustion_witness :
    (playerFrame ⟨true, false, false, false, true, true⟩ 1 ⟨0, 0, -1⟩ ⟨1, 0, 0⟩
        ⟨100, 0, 0, true, 0, 0, 0, 1 / 2⟩).stamina ≤
      (⟨100, 0, 0, true, 0, 0, 0, 1 / 2⟩ : PlayerState).stamina ∧
    (playerFrame ⟨true, false, false, false, true, true⟩ 1 ⟨0, 0, -1⟩ ⟨1, 0, 0⟩
        ⟨1 / 20, 0, 0, true, 0, 0, 0, 1 / 2⟩).velX = 0 ∧
    (playerFrame ⟨true, false, false, false, true, true⟩ 1 ⟨0, 0, -1⟩ ⟨1, 0, 0⟩
        ⟨1 / 20, 0, 0, true, 0, 0, 0, 1 / 2⟩).velZ = 0 := by
  have h1 := player_stamina_monotone_and_exhaustion
    ⟨true, false, false, false, true, true⟩ 1 ⟨0, 0, -1⟩ ⟨1, 0, 0⟩
    ⟨100, 0, 0, true, 0, 0, 0, 1 / 2⟩ (by norm_num)
  have h2 := player_stamina_monotone_and_exhaustion
    ⟨true, false, false, false, true, true⟩ 1 ⟨0, 0, -1⟩ ⟨1, 0, 0⟩
    ⟨1 / 20, 0, 0, true, 0, 0, 0, 1 / 2⟩ (by norm_num)
  have hex := h2.2.2 (by norm_num [minStaminaToMove])
  exact ⟨h1.1, hex.1, hex.2⟩

/-! ## C9: gated portal interaction -/

/-- C9: interacting with a near portal whose destination is the gated
`minigame4` room teleports only when all three minigame reward items are in
the inventory; when the gate fails the interaction leaves the store
entirely unchanged, and when it holds (or the destination is not gated)
`teleportToRoom` runs and the room changes. -/
theorem portal_gate_enforced (inv : List InventoryItem) (s : GameState)
    (portal : Portal) (hnear : s.nearPortal = some portal) :
    (portal.targetRoom = RoomType.minigame4 → hasAllBoxes inv = false →
      portalInteract true inv s = s) ∧
    ((portal.targetRoom = RoomType.minigame4 → hasAllBoxes inv = true) →
      portalInteract true inv s = teleportToRoom s portal.targetRoom ∧
      (portalInteract true inv s).currentRoom = portal.targetRoom) := by
  constructor
  · intro htgt hbox
    simp only [portalInteract, hnear]
    rw [if_pos trivial, if_pos ⟨htgt, hbox⟩]
  · intro hgate
    have hcond : ¬(portal.targetRoom = RoomType.minigame4 ∧ hasAllBoxes inv = false) := by
      rintro ⟨h1, h2⟩
      rw [hgate h1] at h2
      cases h2
    simp only [portalInteract, hnear]
    rw [if_pos trivial, if_neg hcond]
    exact ⟨rfl, rfl⟩

/-- C9 witness: with an empty inventory the `minigame4` portal interaction
is a no-op; with all three reward items it teleports to `minigame4`. -/
theorem portal_gate_enforced_witness :
    portalInteract true [] nearMinigame4State = nearMinigame4State ∧
    (portalInteract true fullInventory nearMinigame4State).currentRoom =
      RoomType.minigame4 := by
  have h1 := portal_gate_enforced [] nearMinigame4State
    ⟨RoomType.minigame4, ⟨0, 0, 0⟩⟩ rfl
  have h2 := portal_gate_enforced fullInventory nearMinigame4State
    ⟨RoomType.minigame4, ⟨0, 0, 0⟩⟩ rfl
  exact ⟨h1.1 rfl rfl, (h2.2 fun _ => rfl).2⟩
